import Mathlib

/-!
Verification of the tufipfs IPFS-backed TUF updater (src/tufipfs/updater.py)
and its repository simulator (src/tests/repository_simulator.py), as a
shallow embedding in Lean.

Effects are made explicit: the network is a function from URLs to HTTP
responses, the local filesystem is a function from paths to optional file
contents, and `download_target` returns, besides its Python return value or
exception, the final state of the mutated `TargetFile` record, the final
filesystem, and the list of URLs it requested.
-/

/-- Bytes of a file or of an HTTP body, one natural number per byte. -/
abbrev Bytes := List Nat

/-- An HTTP response as seen by requests.get: a status code and a body. -/
structure HttpResponse where
  status : Nat
  content : Bytes
deriving DecidableEq

/-- The network: maps each URL to the response the server returns for it. -/
abbrev Net := String → HttpResponse

/-- The local filesystem: maps a path to the bytes stored there, if any. -/
abbrev Fs := String → Option Bytes

/-- Digest oracle for securesystemslib: an algorithm name and data give the
hex digest, or none when the algorithm is unsupported. -/
abbrev HashFn := String → Bytes → Option String

deriving instance DecidableEq for Except

/-- Python dict.get: the value at the (unique) occurrence of the key. -/
def dictGet {α : Type} (d : List (String × α)) (k : String) : Option α :=
  match d with
  | [] => none
  | p :: rest => if p.1 = k then some p.2 else dictGet rest k

/-- Removal effect of Python dict.pop: drop the entry carrying the key
(dict keys are unique, so dropping every occurrence is the same thing). -/
def dictErase {α : Type} (d : List (String × α)) (k : String) : List (String × α) :=
  match d with
  | [] => []
  | p :: rest => if p.1 = k then dictErase rest k else p :: dictErase rest k

/-- Python dict assignment d[k] = v: replace in place, or append if absent. -/
def dictSet {α : Type} (d : List (String × α)) (k : String) (v : α) : List (String × α) :=
  match d with
  | [] => [(k, v)]
  | p :: rest => if p.1 = k then (k, v) :: rest else p :: dictSet rest k v

/-- The fields of tuf.api.metadata.TargetFile that the updater consults:
the logical target path, the optional declared length, and the hash map
(algorithm name to digest, with the content address under key "ipfs"). -/
structure TargetFile where
  path : String
  length : Option Nat
  hashes : List (String × String)
deriving DecidableEq

/-- The Python exceptions raised along download_target and its helpers:
ValueError, tuf.api.exceptions.DownloadError, and the
LengthOrHashMismatchError raised by TargetFile.verify_length_and_hashes. -/
inductive UpdaterError where
  | valueError (msg : String)
  | downloadError (msg : String)
  | lengthOrHashMismatch (msg : String)
deriving DecidableEq

/-- Python str.endswith applied to the single character "/". -/
def endswith_slash (s : String) : Bool :=
  match s.data.getLast? with
  | some c => c == '/'
  | none => false

/-- Python str.startswith applied to the single character "/", as used by
os.path.join on its second component. -/
def startswith_slash (s : String) : Bool :=
  match s.data with
  | c :: _ => c == '/'
  | [] => false

/-- Embeds _ensure_trailing_slash (updater.py lines 167-169): return the url
unchanged when it already ends in a slash, else with a slash appended. -/
def ensure_trailing_slash (url : String) : String :=
  if endswith_slash url then url else url ++ "/"

/-- UTF-8 encoding of one unicode code point, as Python str.encode
produces before urllib.parse.quote percent-escapes the bytes. -/
def utf8EncodeChar (c : Nat) : List Nat :=
  if c < 128 then [c]
  else if c < 2048 then [192 + c / 64, 128 + c % 64]
  else if c < 65536 then [224 + c / 4096, 128 + c / 64 % 64, 128 + c % 64]
  else [240 + c / 262144, 128 + c / 4096 % 64, 128 + c / 64 % 64, 128 + c % 64]

/-- UTF-8 bytes of a string. -/
def utf8Bytes (s : String) : Bytes :=
  (s.data.map fun c => utf8EncodeChar c.toNat).flatten

/-- The always-safe bytes of urllib.parse.quote: ASCII letters, digits, and
the characters underscore, period, hyphen and tilde. With safe="" these are
the only bytes quote leaves unescaped. -/
def alwaysSafe (b : Nat) : Prop :=
  (65 ≤ b ∧ b ≤ 90) ∨ (97 ≤ b ∧ b ≤ 122) ∨ (48 ≤ b ∧ b ≤ 57) ∨
    b = 95 ∨ b = 46 ∨ b = 45 ∨ b = 126

instance : DecidablePred alwaysSafe := fun b => by
  unfold alwaysSafe; infer_instance

/-- Modelled from the spec: the RFC 3986 unreserved bytes
(ALPHA / DIGIT / "-" / "." / "_" / "~"), the spec-side description of the
characters that percent-encoding leaves unescaped. -/
def unreservedByte (b : Nat) : Prop :=
  (48 ≤ b ∧ b ≤ 57) ∨ (65 ≤ b ∧ b ≤ 90) ∨ (97 ≤ b ∧ b ≤ 122) ∨
    b = 45 ∨ b = 46 ∨ b = 95 ∨ b = 126

instance : DecidablePred unreservedByte := fun b => by
  unfold unreservedByte; infer_instance

/-- Uppercase hexadecimal digit, as the percent-escapes of parse.quote use. -/
def hexDigit (n : Nat) : Char :=
  if n < 10 then Char.ofNat (48 + n) else Char.ofNat (55 + n)

/-- Percent-encoding of a single byte by urllib.parse.quote with safe="":
kept verbatim when always-safe, else escaped as a percent and two
uppercase hex digits. -/
def quoteByte (b : Nat) : String :=
  if alwaysSafe b then String.singleton (Char.ofNat b)
  else "%" ++ String.singleton (hexDigit (b / 16)) ++ String.singleton (hexDigit (b % 16))

namespace parse

/-- Embeds urllib.parse.quote(s, "") as called by _generate_target_file_path:
percent-encode every UTF-8 byte that is not always-safe. -/
def quote (s : String) : String :=
  String.join ((utf8Bytes s).map quoteByte)

end parse

/-- Embeds posixpath.join for the two-argument call in
_generate_target_file_path. -/
def os_path_join (path b : String) : String :=
  if startswith_slash b then b
  else if path == "" || endswith_slash path then path ++ b
  else path ++ "/" ++ b

/-- The IpfsUpdater state that download_target and find_cached_target read:
the gateway, the optional target directory, and the optional constructor
target_base_url (stored already normalised with a trailing slash). -/
structure IpfsUpdater where
  gateway : String
  target_dir : Option String
  target_base_url : Option String

/-- Embeds IpfsUpdater.__init__ (updater.py lines 53-75): stores the gateway
and the trailing-slash-normalised target_base_url (None stays None). -/
def IpfsUpdater.init (gateway : String) (target_dir target_base_url : Option String) :
    IpfsUpdater :=
  ⟨gateway, target_dir, target_base_url.map ensure_trailing_slash⟩

/-- Embeds _generate_target_file_path (updater.py lines 158-164): ValueError
when target_dir is unset, else the join of target_dir with the
percent-encoded logical target path. -/
def generate_target_file_path (target_dir : Option String) (targetinfo : TargetFile) :
    Except UpdaterError String :=
  match target_dir with
  | none => Except.error (UpdaterError.valueError "target_dir must be set if filepath is not given")
  | some d => Except.ok (os_path_join d (parse.quote targetinfo.path))

/-- Embeds lines 97-98 of download_target (shared with find_cached_target,
lines 150-151): the explicit filepath when given, else the generated one. -/
def effective_filepath (target_dir : Option String) (targetinfo : TargetFile)
    (filepath : Option String) : Except UpdaterError String :=
  match filepath with
  | some fp => Except.ok fp
  | none => generate_target_file_path target_dir targetinfo

/-- Embeds lines 100-109 of download_target: the call argument (normalised)
when given, else the constructor value (already normalised), else
ValueError. -/
def effective_target_base_url (ctor_url call_url : Option String) :
    Except UpdaterError String :=
  match call_url with
  | none =>
    match ctor_url with
    | none => Except.error (UpdaterError.valueError
        "target_base_url must be set in either download_target() or constructor")
    | some t => Except.ok t
  | some t => Except.ok (ensure_trailing_slash t)

/-- Embeds the digest loop of python-tuf TargetFile._verify_hashes: for each
declared entry compute the digest with the named algorithm (unsupported
algorithms are a mismatch error) and compare with the declared value. -/
def verify_hashes (hf : HashFn) (hashes : List (String × String)) (data : Bytes) :
    Except UpdaterError Unit :=
  match hashes with
  | [] => Except.ok ()
  | (algo, expected) :: rest =>
    match hf algo data with
    | none => Except.error (UpdaterError.lengthOrHashMismatch ("Unsupported algorithm " ++ algo))
    | some observed =>
      if observed = expected then verify_hashes hf rest data
      else Except.error (UpdaterError.lengthOrHashMismatch
        ("Observed hash does not match expected hash for " ++ algo))

/-- Embeds python-tuf TargetFile.verify_length_and_hashes as called at
updater.py line 124: check the declared length first when present, then
every declared hash entry. -/
def verify_length_and_hashes (hf : HashFn) (ti : TargetFile) (data : Bytes) :
    Except UpdaterError Unit :=
  match ti.length with
  | some n =>
    if data.length = n then verify_hashes hf ti.hashes data
    else Except.error (UpdaterError.lengthOrHashMismatch
      "Observed length does not match expected length")
  | none => verify_hashes hf ti.hashes data

/-- The full effect of one download_target call: the Python return value or
exception, the final state of the (mutated) TargetFile record, the final
filesystem, and the URLs requested over the network, in order. -/
structure DownloadResult where
  outcome : Except UpdaterError String
  targetinfo : TargetFile
  fs : Fs
  requests : List String

/-- Embeds lines 116-131 of download_target, from the point where the CID
has been popped off targetinfo.hashes: build the gateway URL, fetch it,
fail on a non-200 status, verify length and remaining hashes, and only
then write the file. -/
def download_target_fetch (gateway : String) (hf : HashFn) (net : Net) (fs : Fs)
    (ti : TargetFile) (fp cid : String) : DownloadResult :=
  let ti2 : TargetFile := { ti with hashes := dictErase ti.hashes "ipfs" }
  let file_url := ensure_trailing_slash gateway ++ "ipfs/" ++ cid
  let response := net file_url
  if response.status ≠ 200 then
    ⟨Except.error (UpdaterError.downloadError
        ("Unable to download target using url " ++ file_url)), ti2, fs, [file_url]⟩
  else
    match verify_length_and_hashes hf ti2 response.content with
    | Except.error e => ⟨Except.error e, ti2, fs, [file_url]⟩
    | Except.ok _ =>
      ⟨Except.ok fp, ti2, fun p => if p = fp then some response.content else fs p, [file_url]⟩

/-- Embeds download_target (updater.py lines 77-131): resolve the
destination filepath (lines 97-98), resolve target_base_url (lines 100-109,
the resolved value is never used afterwards), require the "ipfs" hash entry
(lines 111-114), then pop it and fetch through the gateway. -/
def download_target (self : IpfsUpdater) (hf : HashFn) (net : Net) (fs : Fs)
    (ti : TargetFile) (filepath target_base_url : Option String) : DownloadResult :=
  match effective_filepath self.target_dir ti filepath with
  | Except.error e => ⟨Except.error e, ti, fs, []⟩
  | Except.ok fp =>
    match effective_target_base_url self.target_base_url target_base_url with
    | Except.error e => ⟨Except.error e, ti, fs, []⟩
    | Except.ok _ =>
      match dictGet ti.hashes "ipfs" with
      | none => ⟨Except.error (UpdaterError.valueError "CID missing from hashes"), ti, fs, []⟩
      | some cid => download_target_fetch self.gateway hf net fs ti fp cid

/-- Embeds find_cached_target (updater.py lines 133-156): resolve the
filepath the same way as download_target, then return it exactly when a
file exists there, else None. -/
def find_cached_target (self : IpfsUpdater) (fs : Fs) (ti : TargetFile)
    (filepath : Option String) : Except UpdaterError (Option String) :=
  match effective_filepath self.target_dir ti filepath with
  | Except.error e => Except.error e
  | Except.ok fp => if (fs fp).isSome then Except.ok (some fp) else Except.ok none

/-- Version pointer of tuf.api.metadata.MetaFile as the simulator builds it
(hashes and length are always None there). -/
structure MetaFile where
  version : Nat
deriving DecidableEq

/-- The version-and-reference state of the repository simulator that
update_snapshot and update_timestamp touch: the versions of targets,
snapshot and timestamp, snapshot.meta, and timestamp.snapshot_meta. -/
structure RepoState where
  targets_version : Nat
  snapshot_version : Nat
  snapshot_meta : List (String × MetaFile)
  timestamp_version : Nat
  timestamp_snapshot_meta : MetaFile
deriving DecidableEq

/-- Embeds RepositorySimulator.update_timestamp (lines 110-122): point
timestamp.snapshot_meta at the current snapshot version, then bump the
timestamp version. -/
def update_timestamp (s : RepoState) : RepoState :=
  { s with timestamp_snapshot_meta := ⟨s.snapshot_version⟩,
           timestamp_version := s.timestamp_version + 1 }

/-- Embeds RepositorySimulator.update_snapshot (lines 124-135): record the
current targets version under "targets.json" in snapshot.meta (all_targets
yields exactly the one top-level targets role), bump the snapshot version,
then run update_timestamp. -/
def update_snapshot (s : RepoState) : RepoState :=
  let s1 : RepoState :=
    { s with snapshot_meta := dictSet s.snapshot_meta "targets.json" ⟨s.targets_version⟩ }
  let s2 : RepoState := { s1 with snapshot_version := s1.snapshot_version + 1 }
  update_timestamp s2

/-- The exceptions the simulator's fetch_metadata can raise on the root
branch: tuf.api.exceptions.DownloadHTTPError, and Python's IndexError from
the list subscript. -/
inductive FetchError where
  | downloadHTTPError (msg : String) (status : Nat)
  | indexError
deriving DecidableEq

/-- Embeds Python list subscripting l[i]: a negative index counts from the
end of the list, and an out-of-range index is an IndexError, modelled as
none. -/
def py_list_get {α : Type} (l : List α) (i : Int) : Option α :=
  let j : Int := if i < 0 then (l.length : Int) + i else i
  if 0 ≤ j then l.get? j.toNat else none

/-- Embeds the role == Root.type branch of RepositorySimulator.fetch_metadata
(repository_simulator.py lines 181-186): 404 when version is None or larger
than the number of published roots, else the Python subscript
signed_roots[version - 1]. The interpolated text of the 404 message is
elided to a fixed string. -/
def fetch_metadata_root {α : Type} (signed_roots : List α) (version : Option Int) :
    Except FetchError α :=
  match version with
  | none => Except.error (FetchError.downloadHTTPError "Unknown root version" 404)
  | some v =>
    if (signed_roots.length : Int) < v then
      Except.error (FetchError.downloadHTTPError "Unknown root version" 404)
    else
      match py_list_get signed_roots (v - 1) with
      | some b => Except.ok b
      | none => Except.error FetchError.indexError

/-! ## Helper lemmas -/

theorem dictGet_dictErase_self {α : Type} (d : List (String × α)) (k : String) :
    dictGet (dictErase d k) k = none := by
  induction d with
  | nil => rfl
  | cons p rest ih =>
    by_cases h : p.1 = k
    · simpa [dictErase, h] using ih
    · simp [dictErase, dictGet, h, ih]

theorem mem_dictErase {α : Type} (d : List (String × α)) (k : String) (p : String × α) :
    p ∈ dictErase d k ↔ p ∈ d ∧ p.1 ≠ k := by
  induction d with
  | nil => simp [dictErase]
  | cons q rest ih =>
    by_cases h : q.1 = k
    · rw [dictErase]
      rw [if_pos h, ih]
      constructor
      · rintro ⟨hm, hne⟩; exact ⟨List.mem_cons_of_mem q hm, hne⟩
      · rintro ⟨hm, hne⟩
        rcases List.mem_cons.mp hm with hq | hm2
        · exact absurd (hq ▸ h) hne
        · exact ⟨hm2, hne⟩
    · rw [dictErase]
      rw [if_neg h]
      constructor
      · intro hm
        rcases List.mem_cons.mp hm with hq | hm2
        · exact ⟨hq ▸ List.mem_cons_self q rest, hq ▸ h⟩
        · obtain ⟨hm3, hne⟩ := ih.mp hm2
          exact ⟨List.mem_cons_of_mem q hm3, hne⟩
      · rintro ⟨hm, hne⟩
        rcases List.mem_cons.mp hm with hq | hm2
        · exact hq ▸ List.mem_cons_self q (dictErase rest k)
        · exact List.mem_cons_of_mem q (ih.mpr ⟨hm2, hne⟩)

theorem dictGet_dictSet_self {α : Type} (d : List (String × α)) (k : String) (v : α) :
    dictGet (dictSet d k v) k = some v := by
  induction d with
  | nil => simp [dictSet, dictGet]
  | cons p rest ih =>
    by_cases h : p.1 = k
    · simp [dictSet, dictGet, h]
    · simp [dictSet, dictGet, h, ih]

theorem verify_hashes_ok_iff (hf : HashFn) (l : List (String × String)) (data : Bytes) :
    verify_hashes hf l data = Except.ok () ↔ ∀ p ∈ l, hf p.1 data = some p.2 := by
  induction l with
  | nil => simp [verify_hashes]
  | cons p rest ih =>
    obtain ⟨algo, expected⟩ := p
    cases hh : hf algo data with
    | none =>
      simp only [verify_hashes, hh]
      constructor
      · intro hcontra; cases hcontra
      · intro hall
        have h1 := hall (algo, expected) (List.mem_cons_self _ _)
        rw [hh] at h1; cases h1
    | some obs =>
      simp only [verify_hashes, hh]
      by_cases he : obs = expected
      · rw [if_pos he, ih]
        subst he
        constructor
        · intro hall q hq
          rcases List.mem_cons.mp hq with hq1 | hq2
          · rw [hq1]; exact hh
          · exact hall q hq2
        · intro hall q hq
          exact hall q (List.mem_cons_of_mem _ hq)
      · rw [if_neg he]
        constructor
        · intro hcontra; cases hcontra
        · intro hall
          have h1 := hall (algo, expected) (List.mem_cons_self _ _)
          rw [hh] at h1
          exact absurd (Option.some.inj h1) he

theorem verify_hashes_congr (hf1 hf2 : HashFn) (l : List (String × String)) (data : Bytes)
    (hkeys : ∀ p ∈ l, p.1 ≠ "ipfs") (hagree : ∀ a, a ≠ "ipfs" → hf1 a = hf2 a) :
    verify_hashes hf1 l data = verify_hashes hf2 l data := by
  induction l with
  | nil => rfl
  | cons p rest ih =>
    obtain ⟨algo, expected⟩ := p
    have hk : algo ≠ "ipfs" := hkeys (algo, expected) (List.mem_cons_self _ _)
    have hrest : ∀ q ∈ rest, q.1 ≠ "ipfs" := fun q hq => hkeys q (List.mem_cons_of_mem _ hq)
    rw [verify_hashes, verify_hashes, hagree algo hk]
    cases hf2 algo data with
    | none => rfl
    | some obs =>
      by_cases he : obs = expected
      · simp only [if_pos he]; exact ih hrest
      · simp only [if_neg he]

theorem effective_filepath_hashes_irrel (td : Option String) (ti : TargetFile)
    (h : List (String × String)) (fp? : Option String) :
    effective_filepath td { ti with hashes := h } fp? = effective_filepath td ti fp? := rfl

theorem effective_target_base_url_ok (c a : Option String) (hava : a ≠ none ∨ c ≠ none) :
    ∃ t, effective_target_base_url c a = Except.ok t := by
  cases a with
  | some t => exact ⟨ensure_trailing_slash t, rfl⟩
  | none =>
    cases c with
    | some t => exact ⟨t, rfl⟩
    | none => rcases hava with hh | hh <;> exact absurd rfl hh

theorem download_target_reach_fetch (u : IpfsUpdater) (hf : HashFn) (net : Net) (fs : Fs)
    (ti : TargetFile) (fp? tbu? : Option String) (fp tbu cid : String)
    (heff : effective_filepath u.target_dir ti fp? = Except.ok fp)
    (hbu : effective_target_base_url u.target_base_url tbu? = Except.ok tbu)
    (hcid : dictGet ti.hashes "ipfs" = some cid) :
    download_target u hf net fs ti fp? tbu? = download_target_fetch u.gateway hf net fs ti fp cid := by
  rw [download_target, heff, hbu, hcid]

theorem download_target_fetch_non200 (g : String) (hf : HashFn) (net : Net) (fs : Fs)
    (ti : TargetFile) (fp cid : String)
    (hstatus : (net (ensure_trailing_slash g ++ "ipfs/" ++ cid)).status ≠ 200) :
    download_target_fetch g hf net fs ti fp cid =
      ⟨Except.error (UpdaterError.downloadError
          ("Unable to download target using url " ++ (ensure_trailing_slash g ++ "ipfs/" ++ cid))),
        { ti with hashes := dictErase ti.hashes "ipfs" }, fs,
        [ensure_trailing_slash g ++ "ipfs/" ++ cid]⟩ := by
  rw [download_target_fetch]
  exact if_pos hstatus

theorem download_target_fetch_200 (g : String) (hf : HashFn) (net : Net) (fs : Fs)
    (ti : TargetFile) (fp cid : String)
    (hstatus : (net (ensure_trailing_slash g ++ "ipfs/" ++ cid)).status = 200) :
    download_target_fetch g hf net fs ti fp cid =
      match verify_length_and_hashes hf { ti with hashes := dictErase ti.hashes "ipfs" }
          (net (ensure_trailing_slash g ++ "ipfs/" ++ cid)).content with
      | Except.error e =>
        ⟨Except.error e, { ti with hashes := dictErase ti.hashes "ipfs" }, fs,
          [ensure_trailing_slash g ++ "ipfs/" ++ cid]⟩
      | Except.ok _ =>
        ⟨Except.ok fp, { ti with hashes := dictErase ti.hashes "ipfs" },
          fun p => if p = fp then some (net (ensure_trailing_slash g ++ "ipfs/" ++ cid)).content else fs p,
          [ensure_trailing_slash g ++ "ipfs/" ++ cid]⟩ := by
  rw [download_target_fetch]
  exact if_neg fun h => h hstatus

/-! ## Concrete fixtures used by witnesses and counterexamples -/

/-- A network whose every URL answers 200 with the bytes of "f1". -/
def net0 : Net := fun _ => ⟨200, [102, 49]⟩

/-- A network whose every URL answers 404 with an empty body. -/
def net404 : Net := fun _ => ⟨404, []⟩

/-- An empty local filesystem. -/
def fs0 : Fs := fun _ => none

/-- A digest oracle supporting no algorithm at all. -/
def hf0 : HashFn := fun _ _ => none

/-- A digest oracle that answers "d1" for sha256 on the bytes of "f1". -/
def hf1 : HashFn := fun a d => if a = "sha256" ∧ d = [102, 49] then some "d1" else none

/-- A target record with no content-address entry and no other hash. -/
def tiNoCid : TargetFile := ⟨"file.txt", none, []⟩

/-- A target record with no content-address entry but a legacy sha256. -/
def tiSha : TargetFile := ⟨"file.txt", some 3, [("sha256", "ab")]⟩

/-- A target record with a content address, a declared length and a legacy
sha256 entry. -/
def tiCid : TargetFile := ⟨"file.txt", some 2, [("ipfs", "QmX"), ("sha256", "d1")]⟩

/-- An updater with no target_dir but a constructor target_base_url. -/
def uNoDir : IpfsUpdater := IpfsUpdater.init "http://gw" none (some "http://t")

/-- A fully configured updater. -/
def u1 : IpfsUpdater := IpfsUpdater.init "http://gw" (some "targets") (some "http://t")

/-! ## Claims -/

/-- Claim C1, counterexample to the claim as stated: with filepath absent and
target_dir unset (a legal choice of the filepath argument), a record with no
"ipfs" hash entry and an available target_base_url makes download_target
raise the target_dir ValueError, not the missing-content-address error
(though still with no request and no write). -/
theorem download_target_missing_cid_cex :
    (download_target uNoDir hf0 net0 fs0 tiNoCid none none).outcome =
      Except.error (UpdaterError.valueError "target_dir must be set if filepath is not given") ∧
    (download_target uNoDir hf0 net0 fs0 tiNoCid none none).outcome ≠
      Except.error (UpdaterError.valueError "CID missing from hashes") := by
  exact ⟨rfl, by decide⟩

/-- Claim C1 (amended): for every target record whose hash map has no "ipfs"
entry, download_target raises the missing-content-address ValueError before
any network request is issued and before any file is written, for every
choice of filepath and target_base_url arguments such that target_base_url
is available and the destination filepath resolves (filepath given, or
target_dir configured). -/
theorem download_target_missing_cid_amended (u : IpfsUpdater) (hf : HashFn) (net : Net)
    (fs : Fs) (ti : TargetFile) (fp? tbu? : Option String) (fp tbu : String)
    (heff : effective_filepath u.target_dir ti fp? = Except.ok fp)
    (hbu : effective_target_base_url u.target_base_url tbu? = Except.ok tbu)
    (hno : dictGet ti.hashes "ipfs" = none) :
    download_target u hf net fs ti fp? tbu? =
      ⟨Except.error (UpdaterError.valueError "CID missing from hashes"), ti, fs, []⟩ := by
  rw [download_target, heff, hbu, hno]

/-- Claim C1, witness: the amended theorem applied to a concrete record with
only a sha256 hash, explicit filepath absent but target_dir configured. -/
theorem download_target_missing_cid_amended_case :
    download_target u1 hf0 net0 fs0 tiSha none none =
      ⟨Except.error (UpdaterError.valueError "CID missing from hashes"), tiSha, fs0, []⟩ :=
  download_target_missing_cid_amended u1 hf0 net0 fs0 tiSha none none
    "targets/file.txt" "http://t/" (by decide) (by decide) (by decide)

/-- Claim C2: whenever the gateway's response status differs from 200,
download_target raises a DownloadError whose message carries the attempted
URL, and the filesystem is left completely unchanged (in particular nothing
is written at the destination path). -/
theorem download_target_non200_no_write (u : IpfsUpdater) (hf : HashFn) (net : Net)
    (fs : Fs) (ti : TargetFile) (fp? tbu? : Option String) (fp tbu cid : String)
    (heff : effective_filepath u.target_dir ti fp? = Except.ok fp)
    (hbu : effective_target_base_url u.target_base_url tbu? = Except.ok tbu)
    (hcid : dictGet ti.hashes "ipfs" = some cid)
    (hstatus : (net (ensure_trailing_slash u.gateway ++ "ipfs/" ++ cid)).status ≠ 200) :
    (download_target u hf net fs ti fp? tbu?).outcome =
      Except.error (UpdaterError.downloadError
        ("Unable to download target using url " ++ (ensure_trailing_slash u.gateway ++ "ipfs/" ++ cid))) ∧
    (download_target u hf net fs ti fp? tbu?).fs = fs := by
  rw [download_target_reach_fetch u hf net fs ti fp? tbu? fp tbu cid heff hbu hcid]
  rw [download_target_fetch_non200 u.gateway hf net fs ti fp cid hstatus]
  exact ⟨rfl, rfl⟩

/-- Claim C2, witness: a concrete 404 from the gateway on a record carrying
the content address "QmX". -/
theorem download_target_non200_no_write_case :
    (download_target u1 hf1 net404 fs0 tiCid (some "out.bin") none).outcome =
      Except.error (UpdaterError.downloadError
        ("Unable to download target using url " ++ (ensure_trailing_slash u1.gateway ++ "ipfs/" ++ "QmX"))) ∧
    (download_target u1 hf1 net404 fs0 tiCid (some "out.bin") none).fs = fs0 :=
  download_target_non200_no_write u1 hf1 net404 fs0 tiCid (some "out.bin") none
    "out.bin" "http://t/" "QmX" (by decide) (by decide) (by decide) (by decide)

theorem verify_length_mismatch (hf : HashFn) (ti : TargetFile) (data : Bytes) (n : Nat)
    (hn : ti.length = some n) (hne : data.length ≠ n) :
    verify_length_and_hashes hf ti data =
      Except.error (UpdaterError.lengthOrHashMismatch
        "Observed length does not match expected length") := by
  simp only [verify_length_and_hashes, hn]
  exact if_neg hne

theorem verify_length_and_hashes_ok_iff (hf : HashFn) (ti : TargetFile) (data : Bytes) :
    verify_length_and_hashes hf ti data = Except.ok () ↔
      ((∀ n, ti.length = some n → data.length = n) ∧
        ∀ p ∈ ti.hashes, hf p.1 data = some p.2) := by
  cases hl : ti.length with
  | none =>
    have h1 : verify_length_and_hashes hf ti data = verify_hashes hf ti.hashes data := by
      simp only [verify_length_and_hashes, hl]
    rw [h1, verify_hashes_ok_iff]
    constructor
    · intro hall
      exact ⟨fun n hn => absurd hn (Option.noConfusion), hall⟩
    · intro hall; exact hall.2
  | some n =>
    simp only [verify_length_and_hashes, hl]
    by_cases hlen : data.length = n
    · rw [if_pos hlen, verify_hashes_ok_iff]
      constructor
      · intro hall
        refine ⟨fun m hm => ?_, hall⟩
        rw [hlen]
        exact Option.some.inj hm
      · intro hall; exact hall.2
    · rw [if_neg hlen]
      constructor
      · intro hcontra; cases hcontra
      · intro hall; exact absurd (hall.1 n rfl) hlen

theorem verify_length_and_hashes_congr (hf1 hf2 : HashFn) (ti : TargetFile) (data : Bytes)
    (hkeys : ∀ p ∈ ti.hashes, p.1 ≠ "ipfs") (hagree : ∀ a, a ≠ "ipfs" → hf1 a = hf2 a) :
    verify_length_and_hashes hf1 ti data = verify_length_and_hashes hf2 ti data := by
  have hv := verify_hashes_congr hf1 hf2 ti.hashes data hkeys hagree
  cases hl : ti.length with
  | none => simp only [verify_length_and_hashes, hl, hv]
  | some n => simp only [verify_length_and_hashes, hl, hv]

theorem download_target_fetch_congr (g : String) (hf1 hf2 : HashFn) (net : Net) (fs : Fs)
    (ti : TargetFile) (fp cid : String) (hagree : ∀ a, a ≠ "ipfs" → hf1 a = hf2 a) :
    download_target_fetch g hf1 net fs ti fp cid = download_target_fetch g hf2 net fs ti fp cid := by
  have hv : verify_length_and_hashes hf1 { ti with hashes := dictErase ti.hashes "ipfs" }
      (net (ensure_trailing_slash g ++ "ipfs/" ++ cid)).content =
      verify_length_and_hashes hf2 { ti with hashes := dictErase ti.hashes "ipfs" }
      (net (ensure_trailing_slash g ++ "ipfs/" ++ cid)).content :=
    verify_length_and_hashes_congr hf1 hf2 _ _
      (fun p hp => ((mem_dictErase ti.hashes "ipfs" p).mp hp).2) hagree
  simp only [download_target_fetch]
  rw [hv]

/-- Claim C3: on a 200 response download_target verifies the retrieved bytes
before writing any file: a declared-length mismatch raises the length
mismatch error and leaves the filesystem unchanged; the popped record no
longer carries the "ipfs" entry, whose digest is never recomputed (the
whole call is invariant under changing the digest oracle at "ipfs"); the
call succeeds exactly when the length check and every remaining declared
hash entry pass, and only then is the destination written (and nothing
else). -/
theorem download_target_verify_before_write (u : IpfsUpdater) (hf : HashFn) (net : Net)
    (fs : Fs) (ti : TargetFile) (fp? tbu? : Option String) (fp tbu cid : String)
    (heff : effective_filepath u.target_dir ti fp? = Except.ok fp)
    (hbu : effective_target_base_url u.target_base_url tbu? = Except.ok tbu)
    (hcid : dictGet ti.hashes "ipfs" = some cid)
    (hstatus : (net (ensure_trailing_slash u.gateway ++ "ipfs/" ++ cid)).status = 200) :
    (∀ n, ti.length = some n →
      (net (ensure_trailing_slash u.gateway ++ "ipfs/" ++ cid)).content.length ≠ n →
      (download_target u hf net fs ti fp? tbu?).outcome =
        Except.error (UpdaterError.lengthOrHashMismatch
          "Observed length does not match expected length") ∧
      (download_target u hf net fs ti fp? tbu?).fs = fs) ∧
    dictGet (dictErase ti.hashes "ipfs") "ipfs" = none ∧
    ((download_target u hf net fs ti fp? tbu?).outcome = Except.ok fp ↔
      ((∀ n, ti.length = some n →
          (net (ensure_trailing_slash u.gateway ++ "ipfs/" ++ cid)).content.length = n) ∧
        ∀ p ∈ dictErase ti.hashes "ipfs",
          hf p.1 (net (ensure_trailing_slash u.gateway ++ "ipfs/" ++ cid)).content = some p.2)) ∧
    ((download_target u hf net fs ti fp? tbu?).outcome = Except.ok fp →
      (download_target u hf net fs ti fp? tbu?).fs fp =
        some (net (ensure_trailing_slash u.gateway ++ "ipfs/" ++ cid)).content ∧
      ∀ q, q ≠ fp → (download_target u hf net fs ti fp? tbu?).fs q = fs q) ∧
    ((download_target u hf net fs ti fp? tbu?).outcome ≠ Except.ok fp →
      (download_target u hf net fs ti fp? tbu?).fs = fs) ∧
    (∀ hf2 : HashFn, (∀ a, a ≠ "ipfs" → hf a = hf2 a) →
      download_target u hf net fs ti fp? tbu? = download_target u hf2 net fs ti fp? tbu?) := by
  have hreach := download_target_reach_fetch u hf net fs ti fp? tbu? fp tbu cid heff hbu hcid
  have h200 := download_target_fetch_200 u.gateway hf net fs ti fp cid hstatus
  have hokiff := verify_length_and_hashes_ok_iff hf
    { ti with hashes := dictErase ti.hashes "ipfs" }
    (net (ensure_trailing_slash u.gateway ++ "ipfs/" ++ cid)).content
  refine ⟨?_, dictGet_dictErase_self ti.hashes "ipfs", ?_, ?_, ?_, ?_⟩
  · intro n hn hne
    have hverr := verify_length_mismatch hf { ti with hashes := dictErase ti.hashes "ipfs" }
      (net (ensure_trailing_slash u.gateway ++ "ipfs/" ++ cid)).content n hn hne
    rw [hreach, h200, hverr]
    exact ⟨rfl, rfl⟩
  · rw [hreach, h200]
    cases hverify : verify_length_and_hashes hf { ti with hashes := dictErase ti.hashes "ipfs" }
        (net (ensure_trailing_slash u.gateway ++ "ipfs/" ++ cid)).content with
    | error e =>
      rw [hverify] at hokiff
      simp only []
      constructor
      · intro hcontra; cases hcontra
      · intro hall
        have := hokiff.mpr hall
        cases this
    | ok uu =>
      rw [hverify] at hokiff
      simp only []
      constructor
      · intro _; exact hokiff.mp rfl
      · intro _; trivial
  · rw [hreach, h200]
    cases hverify : verify_length_and_hashes hf { ti with hashes := dictErase ti.hashes "ipfs" }
        (net (ensure_trailing_slash u.gateway ++ "ipfs/" ++ cid)).content with
    | error e =>
      simp only []
      intro hcontra; cases hcontra
    | ok uu =>
      simp only []
      intro _
      constructor
      · simp
      · intro q hq; simp [hq]
  · rw [hreach, h200]
    cases hverify : verify_length_and_hashes hf { ti with hashes := dictErase ti.hashes "ipfs" }
        (net (ensure_trailing_slash u.gateway ++ "ipfs/" ++ cid)).content with
    | error e => intro _; rfl
    | ok uu =>
      intro hcontra
      exact absurd rfl hcontra
  · intro hf2 hagree
    have hreach2 := download_target_reach_fetch u hf2 net fs ti fp? tbu? fp tbu cid heff hbu hcid
    rw [hreach, hreach2]
    exact download_target_fetch_congr u.gateway hf hf2 net fs ti fp cid hagree

/-- Claim C3, witness: concrete 200 response whose bytes match the declared
length 2 and the declared legacy sha256 digest, so the download succeeds. -/
theorem download_target_verify_before_write_case :
    (download_target u1 hf1 net0 fs0 tiCid (some "out.bin") none).outcome =
      Except.ok "out.bin" := by
  have h := download_target_verify_before_write u1 hf1 net0 fs0 tiCid (some "out.bin") none
    "out.bin" "http://t/" "QmX" (by decide) (by decide) (by decide) (by decide)
  exact h.2.2.1.mpr ⟨fun n hn => by cases hn; rfl, by decide⟩

/-- Claim C4: any download_target call that passes the content-address
precondition pops the "ipfs" entry off the record: the returned record's
hash map is the original with "ipfs" erased, looking up "ipfs" in it gives
none, and a second call on the returned record with the same arguments
raises the missing-content-address ValueError even when the first call
succeeded — download_target is not idempotent on the record. -/
theorem download_target_mutates_targetinfo (u : IpfsUpdater) (hf : HashFn) (net : Net)
    (fs : Fs) (ti : TargetFile) (fp? tbu? : Option String) (fp tbu cid : String)
    (heff : effective_filepath u.target_dir ti fp? = Except.ok fp)
    (hbu : effective_target_base_url u.target_base_url tbu? = Except.ok tbu)
    (hcid : dictGet ti.hashes "ipfs" = some cid) :
    (download_target u hf net fs ti fp? tbu?).targetinfo.hashes = dictErase ti.hashes "ipfs" ∧
    dictGet (download_target u hf net fs ti fp? tbu?).targetinfo.hashes "ipfs" = none ∧
    (download_target u hf net
        (download_target u hf net fs ti fp? tbu?).fs
        (download_target u hf net fs ti fp? tbu?).targetinfo fp? tbu?).outcome =
      Except.error (UpdaterError.valueError "CID missing from hashes") := by
  have hreach := download_target_reach_fetch u hf net fs ti fp? tbu? fp tbu cid heff hbu hcid
  have hti : (download_target u hf net fs ti fp? tbu?).targetinfo =
      { ti with hashes := dictErase ti.hashes "ipfs" } := by
    rw [hreach, download_target_fetch]
    by_cases hs : (net (ensure_trailing_slash u.gateway ++ "ipfs/" ++ cid)).status ≠ 200
    · rw [if_pos hs]
    · rw [if_neg hs]
      cases verify_length_and_hashes hf { ti with hashes := dictErase ti.hashes "ipfs" }
          (net (ensure_trailing_slash u.gateway ++ "ipfs/" ++ cid)).content with
      | error e => rfl
      | ok uu => rfl
  refine ⟨by rw [hti], by rw [hti]; exact dictGet_dictErase_self ti.hashes "ipfs", ?_⟩
  rw [download_target, hti]
  rw [show effective_filepath u.target_dir { ti with hashes := dictErase ti.hashes "ipfs" } fp? =
      Except.ok fp from heff]
  rw [hbu]
  rw [show dictGet ({ ti with hashes := dictErase ti.hashes "ipfs" } : TargetFile).hashes "ipfs" =
      none from dictGet_dictErase_self ti.hashes "ipfs"]

/-- Claim C4, witness: a concrete successful first call followed by a failing
second call on the returned record. -/
theorem download_target_mutates_targetinfo_case :
    (download_target u1 hf1 net0
        (download_target u1 hf1 net0 fs0 tiCid (some "out.bin") none).fs
        (download_target u1 hf1 net0 fs0 tiCid (some "out.bin") none).targetinfo
        (some "out.bin") none).outcome =
      Except.error (UpdaterError.valueError "CID missing from hashes") :=
  (download_target_mutates_targetinfo u1 hf1 net0 fs0 tiCid (some "out.bin") none
    "out.bin" "http://t/" "QmX" (by decide) (by decide) (by decide)).2.2

/-- Claim C5: the one URL download_target requests is the gateway with a
trailing slash ensured (appended only when not already present), then the
fixed segment "ipfs/", then the record's content address; the resolved
target_base_url plays no part: replacing the constructor value and the call
argument by any other available pair leaves the whole result unchanged. -/
theorem download_target_url_shape (u : IpfsUpdater) (hf : HashFn) (net : Net)
    (fs : Fs) (ti : TargetFile) (fp? tbu? : Option String) (fp tbu cid : String)
    (heff : effective_filepath u.target_dir ti fp? = Except.ok fp)
    (hbu : effective_target_base_url u.target_base_url tbu? = Except.ok tbu)
    (hcid : dictGet ti.hashes "ipfs" = some cid) :
    (download_target u hf net fs ti fp? tbu?).requests =
      [ensure_trailing_slash u.gateway ++ "ipfs/" ++ cid] ∧
    (endswith_slash u.gateway = true → ensure_trailing_slash u.gateway = u.gateway) ∧
    (endswith_slash u.gateway = false → ensure_trailing_slash u.gateway = u.gateway ++ "/") ∧
    (∀ c2 a2 : Option String, (a2 ≠ none ∨ c2 ≠ none) →
      download_target { u with target_base_url := c2 } hf net fs ti fp? a2 =
        download_target u hf net fs ti fp? tbu?) := by
  have hreach := download_target_reach_fetch u hf net fs ti fp? tbu? fp tbu cid heff hbu hcid
  refine ⟨?_, ?_, ?_, ?_⟩
  · rw [hreach, download_target_fetch]
    by_cases hs : (net (ensure_trailing_slash u.gateway ++ "ipfs/" ++ cid)).status ≠ 200
    · rw [if_pos hs]
    · rw [if_neg hs]
      cases verify_length_and_hashes hf { ti with hashes := dictErase ti.hashes "ipfs" }
          (net (ensure_trailing_slash u.gateway ++ "ipfs/" ++ cid)).content with
      | error e => rfl
      | ok uu => rfl
  · intro hs; rw [ensure_trailing_slash, hs]; rfl
  · intro hs; rw [ensure_trailing_slash, hs]; rfl
  · intro c2 a2 hava
    obtain ⟨t2, ht2⟩ := effective_target_base_url_ok c2 a2 hava
    have hreach2 := download_target_reach_fetch { u with target_base_url := c2 } hf net fs ti
      fp? a2 fp t2 cid heff ht2 hcid
    rw [hreach, hreach2]

/-- Claim C5, witness: gateway without a trailing slash, constructor base url
replaced by a different one and the call argument by none. -/
theorem download_target_url_shape_case :
    (download_target u1 hf1 net404 fs0 tiCid (some "out.bin") none).requests =
      ["http://gw/ipfs/QmX"] ∧
    download_target { u1 with target_base_url := some "http://other" } hf1 net404 fs0 tiCid
        (some "out.bin") none =
      download_target u1 hf1 net404 fs0 tiCid (some "out.bin") none := by
  have h := download_target_url_shape u1 hf1 net404 fs0 tiCid (some "out.bin") none
    "out.bin" "http://t/" "QmX" (by decide) (by decide) (by decide)
  exact ⟨h.1, h.2.2.2 (some "http://other") none (Or.inr (by simp))⟩

theorem effective_filepath_error (td : Option String) (ti : TargetFile) (fp? : Option String)
    (e : UpdaterError) (h : effective_filepath td ti fp? = Except.error e) :
    e = UpdaterError.valueError "target_dir must be set if filepath is not given" := by
  cases fp? with
  | some fp => cases h
  | none =>
    cases td with
    | none =>
      rw [effective_filepath, generate_target_file_path] at h
      exact (Except.error.inj h).symm
    | some d => cases h

theorem download_target_after_checks (u : IpfsUpdater) (hf : HashFn) (net : Net) (fs : Fs)
    (ti : TargetFile) (fp? tbu? : Option String) (fp tbu : String)
    (heff : effective_filepath u.target_dir ti fp? = Except.ok fp)
    (hbu : effective_target_base_url u.target_base_url tbu? = Except.ok tbu) :
    download_target u hf net fs ti fp? tbu? =
      match dictGet ti.hashes "ipfs" with
      | none => ⟨Except.error (UpdaterError.valueError "CID missing from hashes"), ti, fs, []⟩
      | some cid => download_target_fetch u.gateway hf net fs ti fp cid := by
  rw [download_target, heff, hbu]

/-- Claim C9: with target_base_url absent from both the constructor and the
call, download_target raises a ValueError with no network request and no
filesystem change (specifically the base-url ValueError whenever the
destination filepath resolves); and since the URL uses only the gateway, the
whole result is invariant under replacing the constructor and call
target_base_url by any other available pair. -/
theorem download_target_base_url_unused (u : IpfsUpdater) (hf : HashFn) (net : Net)
    (fs : Fs) (ti : TargetFile) (fp? : Option String) :
    (u.target_base_url = none →
      (∃ msg, (download_target u hf net fs ti fp? none).outcome =
        Except.error (UpdaterError.valueError msg)) ∧
      (download_target u hf net fs ti fp? none).requests = [] ∧
      (download_target u hf net fs ti fp? none).fs = fs) ∧
    (∀ fp, u.target_base_url = none → effective_filepath u.target_dir ti fp? = Except.ok fp →
      (download_target u hf net fs ti fp? none).outcome =
        Except.error (UpdaterError.valueError
          "target_base_url must be set in either download_target() or constructor")) ∧
    (∀ c1 a1 c2 a2 : Option String, (a1 ≠ none ∨ c1 ≠ none) → (a2 ≠ none ∨ c2 ≠ none) →
      download_target { u with target_base_url := c1 } hf net fs ti fp? a1 =
        download_target { u with target_base_url := c2 } hf net fs ti fp? a2) := by
  refine ⟨?_, ?_, ?_⟩
  · intro hnone
    cases heff : effective_filepath u.target_dir ti fp? with
    | error e =>
      have he := effective_filepath_error u.target_dir ti fp? e heff
      rw [download_target, heff]
      refine ⟨⟨"target_dir must be set if filepath is not given", ?_⟩, rfl, rfl⟩
      rw [he]
    | ok fp =>
      rw [download_target, heff, hnone]
      exact ⟨⟨"target_base_url must be set in either download_target() or constructor",
        rfl⟩, rfl, rfl⟩
  · intro fp hnone heff
    rw [download_target, heff, hnone]
    rfl
  · intro c1 a1 c2 a2 h1 h2
    cases heff : effective_filepath u.target_dir ti fp? with
    | error e =>
      have hl : download_target { u with target_base_url := c1 } hf net fs ti fp? a1 =
          ⟨Except.error e, ti, fs, []⟩ := by
        rw [download_target]
        rw [show effective_filepath ({ u with target_base_url := c1 } : IpfsUpdater).target_dir
            ti fp? = Except.error e from heff]
      have hr : download_target { u with target_base_url := c2 } hf net fs ti fp? a2 =
          ⟨Except.error e, ti, fs, []⟩ := by
        rw [download_target]
        rw [show effective_filepath ({ u with target_base_url := c2 } : IpfsUpdater).target_dir
            ti fp? = Except.error e from heff]
      rw [hl, hr]
    | ok fp =>
      obtain ⟨t1, ht1⟩ := effective_target_base_url_ok c1 a1 h1
      obtain ⟨t2, ht2⟩ := effective_target_base_url_ok c2 a2 h2
      rw [download_target_after_checks { u with target_base_url := c1 } hf net fs ti fp? a1
        fp t1 heff ht1]
      rw [download_target_after_checks { u with target_base_url := c2 } hf net fs ti fp? a2
        fp t2 heff ht2]

/-- An updater with a target_dir but no constructor target_base_url. -/
def uNoBase : IpfsUpdater := IpfsUpdater.init "http://gw" (some "targets") none

/-- Claim C9, witness: both-none configuration raises the base-url
ValueError, and two different non-None constructor values give identical
results. -/
theorem download_target_base_url_unused_case :
    (download_target uNoBase hf0 net0 fs0 tiCid (some "o") none).outcome =
      Except.error (UpdaterError.valueError
        "target_base_url must be set in either download_target() or constructor") ∧
    download_target { u1 with target_base_url := some "http://a" } hf0 net0 fs0 tiCid
        (some "o") none =
      download_target { u1 with target_base_url := some "http://b" } hf0 net0 fs0 tiCid
        (some "o") none := by
  have h := download_target_base_url_unused uNoBase hf0 net0 fs0 tiCid (some "o")
  have h2 := download_target_base_url_unused u1 hf0 net0 fs0 tiCid (some "o")
  refine ⟨h.2.1 "o" rfl rfl, h2.2.2 (some "http://a") none (some "http://b") none ?_ ?_⟩
  · exact Or.inr (by simp)
  · exact Or.inr (by simp)

/-- Claim C10: with an explicitly given filepath, find_cached_target never
raises: it returns the filepath exactly when a file exists there and None
when none does, and its result depends on the filesystem only through the
existence bit at that path (no content, length or hash check). -/
theorem find_cached_target_explicit_path (u : IpfsUpdater) (fs : Fs) (ti : TargetFile)
    (fp : String) :
    find_cached_target u fs ti (some fp) =
      Except.ok (if (fs fp).isSome then some fp else none) ∧
    ((fs fp).isSome = true → find_cached_target u fs ti (some fp) = Except.ok (some fp)) ∧
    ((fs fp).isSome = false → find_cached_target u fs ti (some fp) = Except.ok none) ∧
    (∀ fs2 : Fs, (fs2 fp).isSome = (fs fp).isSome →
      find_cached_target u fs2 ti (some fp) = find_cached_target u fs ti (some fp)) := by
  refine ⟨?_, ?_, ?_, ?_⟩
  · by_cases h : (fs fp).isSome <;> simp [find_cached_target, effective_filepath, h]
  · intro h; simp [find_cached_target, effective_filepath, h]
  · intro h; simp [find_cached_target, effective_filepath, h]
  · intro fs2 he
    simp only [find_cached_target, effective_filepath]
    rw [he]

/-- Claim C10, witness: the empty filesystem has no file at the explicit
path, so find_cached_target returns None without raising. -/
theorem find_cached_target_explicit_path_case :
    find_cached_target u1 fs0 tiCid (some "cache.bin") = Except.ok none :=
  (find_cached_target_explicit_path u1 fs0 tiCid "cache.bin").2.2.1 rfl

theorem alwaysSafe_iff_unreservedByte (b : Nat) : alwaysSafe b ↔ unreservedByte b := by
  unfold alwaysSafe unreservedByte
  omega

/-- Claim C7: the always-safe set of the source's percent-encoder is exactly
the RFC 3986 unreserved bytes, so every other byte is escaped; the plain
name "file.txt" is left unchanged by the encoding; with filepath absent,
download_target and find_cached_target both use the path obtained by
joining target_dir with the percent-encoded logical target path; and with
target_dir unset, generating the path raises the ValueError instead of
producing a path. -/
theorem generated_path_used_and_quoted (u : IpfsUpdater) (hf : HashFn) (net : Net)
    (fs : Fs) (ti : TargetFile) (tbu? : Option String) (d : String) :
    (∀ b : Nat, alwaysSafe b ↔ unreservedByte b) ∧
    (∀ b : Nat, quoteByte b = if unreservedByte b then String.singleton (Char.ofNat b)
      else "%" ++ String.singleton (hexDigit (b / 16)) ++ String.singleton (hexDigit (b % 16))) ∧
    parse.quote "file.txt" = "file.txt" ∧
    (u.target_dir = some d →
      download_target u hf net fs ti none tbu? =
        download_target u hf net fs ti (some (os_path_join d (parse.quote ti.path))) tbu? ∧
      find_cached_target u fs ti none =
        find_cached_target u fs ti (some (os_path_join d (parse.quote ti.path)))) ∧
    (u.target_dir = none →
      (download_target u hf net fs ti none tbu?).outcome =
        Except.error (UpdaterError.valueError "target_dir must be set if filepath is not given") ∧
      find_cached_target u fs ti none =
        Except.error (UpdaterError.valueError "target_dir must be set if filepath is not given")) := by
  refine ⟨alwaysSafe_iff_unreservedByte, ?_, by decide, ?_, ?_⟩
  · intro b
    rw [quoteByte]
    by_cases h : alwaysSafe b
    · rw [if_pos h, if_pos ((alwaysSafe_iff_unreservedByte b).mp h)]
    · rw [if_neg h, if_neg (fun hc => h ((alwaysSafe_iff_unreservedByte b).mpr hc))]
  · intro hd
    have he1 : effective_filepath u.target_dir ti none =
        Except.ok (os_path_join d (parse.quote ti.path)) := by
      simp only [effective_filepath, generate_target_file_path, hd]
    have he2 : effective_filepath u.target_dir ti (some (os_path_join d (parse.quote ti.path))) =
        Except.ok (os_path_join d (parse.quote ti.path)) := rfl
    constructor
    · rw [download_target, download_target, he1, he2]
    · rw [find_cached_target, find_cached_target, he1, he2]
  · intro hd
    have he0 : effective_filepath u.target_dir ti none =
        Except.error (UpdaterError.valueError "target_dir must be set if filepath is not given") := by
      simp only [effective_filepath, generate_target_file_path, hd]
    constructor
    · rw [download_target, he0]
    · rw [find_cached_target, he0]

/-- Claim C7, witness: target_dir configured as "targets" and the plain
target name "file.txt" give the local path "targets/file.txt" for both
operations. -/
theorem generated_path_used_and_quoted_case :
    download_target u1 hf1 net0 fs0 tiCid none none =
      download_target u1 hf1 net0 fs0 tiCid
        (some (os_path_join "targets" (parse.quote tiCid.path))) none ∧
    find_cached_target u1 fs0 tiCid none =
      find_cached_target u1 fs0 tiCid
        (some (os_path_join "targets" (parse.quote tiCid.path))) ∧
    parse.quote "file.txt" = "file.txt" := by
  have h := generated_path_used_and_quoted u1 hf1 net0 fs0 tiCid none "targets"
  have h4 := h.2.2.2.1 rfl
  exact ⟨h4.1, h4.2, h.2.2.1⟩

/-- Claim C8: after update_snapshot, the reference chain is consistent:
snapshot.meta under "targets.json" records the (unchanged) current targets
version, timestamp.snapshot_meta records the new snapshot version, and the
snapshot and timestamp versions have each increased by exactly one. -/
theorem update_snapshot_chain_consistent (s : RepoState) :
    dictGet (update_snapshot s).snapshot_meta "targets.json" = some ⟨s.targets_version⟩ ∧
    (update_snapshot s).targets_version = s.targets_version ∧
    (update_snapshot s).timestamp_snapshot_meta.version = (update_snapshot s).snapshot_version ∧
    (update_snapshot s).snapshot_version = s.snapshot_version + 1 ∧
    (update_snapshot s).timestamp_version = s.timestamp_version + 1 := by
  refine ⟨?_, rfl, rfl, rfl, rfl⟩
  exact dictGet_dictSet_self s.snapshot_meta "targets.json" ⟨s.targets_version⟩

theorem py_list_get_nonneg {α : Type} (l : List α) (i : Int) (h0 : 0 ≤ i)
    (hlt : i.toNat < l.length) : py_list_get l i = some (l.get ⟨i.toNat, hlt⟩) := by
  have hni : ¬ i < 0 := by omega
  simp only [py_list_get, if_neg hni, if_pos h0]
  exact List.get?_eq_get hlt

/-- Claim C6, counterexample to the claim as stated: with exactly one
published root, requesting version 0 — a value outside the claimed valid
range, for which the claim demands a not-found failure — is not
range-checked by the code: Python negative indexing turns the subscript
into signed_roots[-1], the most recent root, and fetch_metadata succeeds. -/
theorem fetch_metadata_root_zero_cex :
    fetch_metadata_root ["root_v1"] (some 0) = Except.ok "root_v1" := rfl

/-- Claim C6 (amended): fetch_metadata on the root role returns the v-th
published root whenever 1 ≤ v ≤ number of published roots, and fails with
the not-found error exactly when v is absent or v exceeds that number; for
v ≤ 0 no not-found error occurs (Python negative indexing returns a root
counted from the end of the list, or an index error). -/
theorem fetch_metadata_root_range {α : Type} (sr : List α) (v : Option Int) :
    (fetch_metadata_root sr v =
        Except.error (FetchError.downloadHTTPError "Unknown root version" 404) ↔
      v = none ∨ ∃ n : Int, v = some n ∧ (sr.length : Int) < n) ∧
    (∀ n : Int, v = some n → 1 ≤ n → n ≤ (sr.length : Int) →
      ∃ h : (n - 1).toNat < sr.length,
        fetch_metadata_root sr v = Except.ok (sr.get ⟨(n - 1).toNat, h⟩)) := by
  cases v with
  | none =>
    constructor
    · constructor
      · intro _; exact Or.inl rfl
      · intro _; rfl
    · intro n hn _ _; cases hn
  | some n =>
    rw [fetch_metadata_root]
    by_cases hlt : (sr.length : Int) < n
    · rw [if_pos hlt]
      constructor
      · constructor
        · intro _; exact Or.inr ⟨n, rfl, hlt⟩
        · intro _; rfl
      · intro m hm h1 h2
        cases hm
        omega
    · rw [if_neg hlt]
      constructor
      · constructor
        · intro habs
          cases hg : py_list_get sr (n - 1) with
          | some b => rw [hg] at habs; simp at habs
          | none => rw [hg] at habs; simp at habs
        · rintro (h | ⟨m, hm, hlt2⟩)
          · cases h
          · cases hm; omega
      · intro m hm h1 h2
        cases hm
        have hfin : (n - 1).toNat < sr.length := by omega
        refine ⟨hfin, ?_⟩
        rw [py_list_get_nonneg sr (n - 1) (by omega) hfin]

/-- Claim C6, witness: two published roots, version 2 requested, the second
root returned; version 3 requested, the not-found error raised. -/
theorem fetch_metadata_root_range_case :
    fetch_metadata_root ["root_v1", "root_v2"] (some 2) = Except.ok "root_v2" ∧
    fetch_metadata_root ["root_v1", "root_v2"] (some 3) =
      Except.error (FetchError.downloadHTTPError "Unknown root version" 404) := by
  have h := fetch_metadata_root_range ["root_v1", "root_v2"] (some 2)
  have h3 := fetch_metadata_root_range ["root_v1", "root_v2"] (some 3)
  obtain ⟨hf, hok⟩ := h.2 2 rfl (by decide) (by decide)
  refine ⟨hok, h3.1.mpr (Or.inr ⟨3, rfl, by decide⟩)⟩
